import Mathlib

/-!
# FluxDB — verification of the core engine

Shallow embedding of the fluxdb document store: the binary record codec
(storage.py), the segment-log scanner (record_loader.py), the inverted index
(indexing.py), the write buffer (buffer_manager.py), the transaction journal
(transaction_manager.py), the data manager (data_manager.py) and the
collection manager (collection_manager.py).

Records are Python dicts; they are modelled as association lists with
Python dict semantics (assignment updates an existing key in place, keeping
its position, and appends otherwise).  Bytes are modelled as natural numbers
below 256, byte strings as lists of them.  Python floats are modelled as
rationals (every numeric value exercised in this development is exactly
representable).  The fresh uuid4 strings that Python draws are passed to the
relevant operations as explicit arguments.
-/

set_option maxRecDepth 100000

namespace FluxDB

/-- A Python value as it appears in records, patches, queries and
aggregation pipelines. -/
inductive PyVal where
  | s (v : String)
  | intv (n : Int)
  | num (q : Rat)
  | boolv (b : Bool)
  | pynone
  | dictv (entries : List (String × PyVal))

/-- A Python dict with string keys, in insertion order. -/
abbrev RecordV := List (String × PyVal)

/-- Python dict lookup (first — and only — binding of the key). -/
def pyDictGet : RecordV → String → Option PyVal
  | [], _ => none
  | (a, b) :: t, k => if a = k then some b else pyDictGet t k

/-- Python dict assignment d[k] = v: update an existing binding in place,
keeping its position, else append. -/
def dictInsert : RecordV → String → PyVal → RecordV
  | [], k, v => [(k, v)]
  | (a, b) :: t, k, v => if a = k then (a, v) :: t else (a, b) :: dictInsert t k v

/-- Python `k in d`. -/
def dictHasKey (d : RecordV) (k : String) : Bool := (pyDictGet d k).isSome

/-- str() of a Python float.  Only the integral case (str(300.0) = "300.0")
is exercised by this development; the non-integral fallback is not a
faithful rendering of Python float formatting. -/
def floatStr (q : Rat) : String :=
  if q.den = 1 then toString q.num ++ ".0" else toString q

mutual
/-- Python repr() restricted to the values of this development.  Escaping of
quotes inside strings is not modelled (no exercised string contains one). -/
def pyRepr : PyVal → String
  | .s v => "\x27" ++ v ++ "\x27"
  | .intv n => toString n
  | .num q => floatStr q
  | .boolv b => if b then "True" else "False"
  | .pynone => "None"
  | .dictv d => "\x7b" ++ pyReprEntries d ++ "\x7d"

/-- repr() of the entries of a dict, comma separated. -/
def pyReprEntries : List (String × PyVal) → String
  | [] => ""
  | [(k, v)] => "\x27" ++ k ++ "\x27: " ++ pyRepr v
  | (k, v) :: t => "\x27" ++ k ++ "\x27: " ++ pyRepr v ++ ", " ++ pyReprEntries t
end

/-- Python str(): identity on strings, repr-like on everything else. -/
def pyStr : PyVal → String
  | .s v => v
  | .intv n => toString n
  | .num q => floatStr q
  | .boolv b => if b then "True" else "False"
  | .pynone => "None"
  | .dictv d => "\x7b" ++ pyReprEntries d ++ "\x7d"

/-- Python truthiness of a value. -/
def pyTruthy : PyVal → Bool
  | .s v => !v.isEmpty
  | .intv n => n != 0
  | .num q => q != 0
  | .boolv b => b
  | .pynone => false
  | .dictv d => !d.isEmpty

mutual
/-- Python == on values (used for dict keys in aggregation grouping). -/
def PyVal.beq : PyVal → PyVal → Bool
  | .s a, .s b => a == b
  | .intv a, .intv b => a == b
  | .intv a, .num b => (a : Rat) == b
  | .num a, .intv b => a == (b : Rat)
  | .num a, .num b => a == b
  | .boolv a, .boolv b => a == b
  | .pynone, .pynone => true
  | .dictv a, .dictv b => PyVal.beqEntries a b
  | _, _ => false

/-- Pointwise equality of dict entry lists (Python dict == ignores order,
but every comparison exercised here is between equal-ordered dicts). -/
def PyVal.beqEntries : List (String × PyVal) → List (String × PyVal) → Bool
  | [], [] => true
  | (k, v) :: xs, (l, w) :: ys => k == l && PyVal.beq v w && PyVal.beqEntries xs ys
  | _, _ => false
end

/-- Digits of a decimal literal to a natural number. -/
def digitsToNat (l : List Char) : Nat := l.foldl (fun a c => a * 10 + (c.toNat - 48)) 0

/-- Integer-and-fraction part of Python float() parsing. -/
def parseFloatCore (cs : List Char) : Option Rat :=
  let intPart := cs.takeWhile Char.isDigit
  let rest := cs.dropWhile Char.isDigit
  match rest with
  | [] => if intPart.isEmpty then none else some (digitsToNat intPart)
  | c :: t =>
    if c = '.' then
      let frac := t.takeWhile Char.isDigit
      let rest2 := t.dropWhile Char.isDigit
      if rest2.isEmpty && !(intPart.isEmpty && frac.isEmpty) then
        some ((digitsToNat intPart : Rat) + (digitsToNat frac : Rat) / ((10 : Rat) ^ frac.length))
      else none
    else none

/-- Python float(string): optional sign, digits, optional fractional part.
Whitespace stripping, exponent and infinity forms are not modelled; no input
in this development uses them.  Returns none where Python raises ValueError. -/
def parseFloat (s : String) : Option Rat :=
  match s.data with
  | [] => none
  | c :: t =>
    if c = '-' then (parseFloatCore t).map (fun q => -q)
    else if c = '+' then parseFloatCore t
    else parseFloatCore s.data

/-- Python float() applied to a value (record values and the int 0 default
are the only exercised cases).  none stands for a float() exception. -/
def pyToFloat : PyVal → Option Rat
  | .s v => parseFloat v
  | .intv n => some n
  | .num q => some q
  | .boolv b => some (if b then 1 else 0)
  | .pynone => none
  | .dictv _ => none

/-! ## UTF-8 (Python str.encode / bytes.decode) -/

/-- UTF-8 encoding of one character. -/
def utf8Char (c : Char) : List Nat :=
  let n := c.toNat
  if n < 128 then [n]
  else if n < 2048 then [192 + n / 64, 128 + n % 64]
  else if n < 65536 then [224 + n / 4096, 128 + n / 64 % 64, 128 + n % 64]
  else [240 + n / 262144, 128 + n / 4096 % 64, 128 + n / 64 % 64, 128 + n % 64]

/-- UTF-8 encoding of a string. -/
def utf8Str (s : String) : List Nat := (s.data.map utf8Char).flatten

/-- Fuel-driven core of the UTF-8 decoder with errors=ignore: a
structurally invalid byte is skipped and decoding resumes (only valid
input is exercised by the theorems below, so the exact recovery policy is
immaterial to them).  The fuel falls by exactly one per decoded character
or skipped byte, so the byte length of the input is always sufficient. -/
def utf8DecodeGo : Nat → List Nat → List Char
  | 0, _ => []
  | _ + 1, [] => []
  | fuel + 1, b0 :: r0 =>
    if b0 < 128 then Char.ofNat b0 :: utf8DecodeGo fuel r0
    else if b0 < 192 then utf8DecodeGo fuel r0
    else if b0 < 224 then
      match r0 with
      | [] => []
      | b1 :: r1 =>
        if 128 ≤ b1 && b1 < 192 then
          let n := (b0 - 192) * 64 + (b1 - 128)
          if 128 ≤ n then Char.ofNat n :: utf8DecodeGo fuel r1 else utf8DecodeGo fuel r1
        else utf8DecodeGo fuel r0
    else if b0 < 240 then
      match r0 with
      | b1 :: b2 :: r2 =>
        if (128 ≤ b1 && b1 < 192) && (128 ≤ b2 && b2 < 192) then
          let n := (b0 - 224) * 4096 + (b1 - 128) * 64 + (b2 - 128)
          if 2048 ≤ n && !(55296 ≤ n && n < 57344) then Char.ofNat n :: utf8DecodeGo fuel r2
          else utf8DecodeGo fuel r2
        else utf8DecodeGo fuel r0
      | _ => []
    else if b0 < 248 then
      match r0 with
      | b1 :: b2 :: b3 :: r3 =>
        if ((128 ≤ b1 && b1 < 192) && (128 ≤ b2 && b2 < 192)) && (128 ≤ b3 && b3 < 192) then
          let n := (b0 - 240) * 262144 + (b1 - 128) * 4096 + (b2 - 128) * 64 + (b3 - 128)
          if 65536 ≤ n && n < 1114112 then Char.ofNat n :: utf8DecodeGo fuel r3
          else utf8DecodeGo fuel r3
        else utf8DecodeGo fuel r0
      | _ => []
    else utf8DecodeGo fuel r0

/-- UTF-8 decoding of a byte list, with enough fuel for the whole input. -/
def utf8DecodeCore (l : List Nat) : List Char := utf8DecodeGo l.length l

/-- bytes.decode(utf-8, errors=ignore). -/
def utf8DecodeStr (l : List Nat) : String := String.mk (utf8DecodeCore l)

/-! ## struct.pack / struct.unpack for the !I format -/

/-- struct.pack(!I, n): 4 bytes, big endian (callers guard n < 2^32). -/
def pack32 (n : Nat) : List Nat :=
  [n / 16777216 % 256, n / 65536 % 256, n / 256 % 256, n % 256]

/-- struct.unpack(!I, bytes). -/
def unpack32 (b0 b1 b2 b3 : Nat) : Nat := ((b0 * 256 + b1) * 256 + b2) * 256 + b3

/-! ## BinaryStorage (storage.py) -/

/-- Failure kinds of the engine (exceptions.py; typeError, keyError and
nameError stand for the corresponding uncaught Python exceptions —
nameError is what buffer_manager.py raises at its os.path.join, since the
module never imports os). -/
inductive Err where
  | collectionNotFound
  | transactionError
  | recordEncodingError
  | fluxError
  | typeError
  | keyError
  | valueError
  | nameError
deriving DecidableEq

/-- One key/value field of the frame body. -/
def encOneField (kv : String × PyVal) : List Nat :=
  pack32 (utf8Str kv.1).length ++ utf8Str kv.1 ++
    pack32 (utf8Str (pyStr kv.2)).length ++ utf8Str (pyStr kv.2)

/-- struct.pack would accept every length in the record (each is < 2^32). -/
def fieldsFit (d : RecordV) : Bool :=
  d.all fun kv =>
    decide ((utf8Str kv.1).length < 4294967296) &&
      decide ((utf8Str (pyStr kv.2)).length < 4294967296)

/-- BinaryStorage.encode_record.  genId is the uuid4 string Python would
draw when the record carries no _id.  encode_record mutates its argument
(data[_id] = record_id); the mutated dict is returned with the bytes.
A non-string _id makes record_id.encode raise (surfaced as typeError);
an oversized length makes struct.pack raise (recordEncodingError). -/
def encodeRecord (genId : String) (data : RecordV) : Except Err (RecordV × List Nat) :=
  match (pyDictGet data "_id").getD (.s genId) with
  | .s rid =>
    let d := dictInsert data "_id" (.s rid)
    let idBytes := (utf8Str rid ++ List.replicate 36 0).take 36
    let body := pack32 d.length ++ (d.map encOneField).flatten
    if fieldsFit d && decide (d.length < 4294967296) &&
        decide (body.length + 36 < 4294967296) then
      .ok (d, pack32 (body.length + 36) ++ idBytes ++ body)
    else .error .recordEncodingError
  | _ => .error .typeError

/-- bytes.rstrip(NUL). -/
def rstripNul (l : List Nat) : List Nat := (l.reverse.dropWhile (· == 0)).reverse

/-- Field loop of BinaryStorage.decode_record, consuming the byte list
(data[offset:] is the suffix still to be consumed). -/
def decodeFields : Nat → List Nat → RecordV → Option RecordV
  | 0, _, acc => some acc
  | n + 1, bytes, acc =>
    match bytes with
    | k3 :: k2 :: k1 :: k0 :: rest =>
      let klen := unpack32 k3 k2 k1 k0
      if rest.length < klen then none
      else
        let key := utf8DecodeStr (rest.take klen)
        match rest.drop klen with
        | v3 :: v2 :: v1 :: v0 :: rest2 =>
          let vlen := unpack32 v3 v2 v1 v0
          if rest2.length < vlen then none
          else
            decodeFields n (rest2.drop vlen)
              (dictInsert acc key (.s (utf8DecodeStr (rest2.take vlen))))
        | _ => none
    | _ => none

/-- BinaryStorage.decode_record on a frame body (the bytes after the outer
length prefix): 36-byte NUL-padded id, field count, then the fields. -/
def decodeRecord (data : List Nat) : Option RecordV :=
  if data.length < 36 then none
  else
    let rid := utf8DecodeStr (rstripNul (data.take 36))
    match data.drop 36 with
    | n3 :: n2 :: n1 :: n0 :: rest2 =>
      decodeFields (unpack32 n3 n2 n1 n0) rest2 [("_id", .s rid)]
    | _ => none

/-! ## RecordLoader (record_loader.py) -/

/-- Fuel-driven frame walk of RecordLoader.load_all_records: read the
4-byte length, stop at the first frame whose declared body length
overflows the remaining bytes (or when fewer than 4 bytes remain), skip
frames that fail to decode.  The fuel falls by one per frame and every
frame consumes at least 4 bytes, so the file length is always enough. -/
def loadFramesGo : Nat → List Nat → List RecordV
  | 0, _ => []
  | fuel + 1, l3 :: l2 :: l1 :: l0 :: rest =>
    let rl := unpack32 l3 l2 l1 l0
    if rest.length < rl then []
    else
      match decodeRecord (rest.take rl) with
      | some r => r :: loadFramesGo fuel (rest.drop rl)
      | none => loadFramesGo fuel (rest.drop rl)
  | _ + 1, _ => []

/-- RecordLoader.load_all_records. -/
def loadAllRecords (file : List Nat) : List RecordV := loadFramesGo file.length file

/-- record[_id] ∈ record_ids (decode always yields a string _id). -/
def recIdIn (r : RecordV) (ids : List String) : Bool :=
  match pyDictGet r "_id" with
  | some (.s rid) => ids.contains rid
  | _ => false

/-- Fuel-driven frame walk of RecordLoader.load_records_by_ids: the same
scan as loadFramesGo, keeping only records whose _id is in the wanted
set. -/
def loadByIdsGo (ids : List String) : Nat → List Nat → List RecordV
  | 0, _ => []
  | fuel + 1, l3 :: l2 :: l1 :: l0 :: rest =>
    let rl := unpack32 l3 l2 l1 l0
    if rest.length < rl then []
    else
      match decodeRecord (rest.take rl) with
      | some r =>
        if recIdIn r ids then r :: loadByIdsGo ids fuel (rest.drop rl)
        else loadByIdsGo ids fuel (rest.drop rl)
      | none => loadByIdsGo ids fuel (rest.drop rl)
  | _ + 1, _ => []

/-- RecordLoader.load_records_by_ids. -/
def loadRecordsByIds (file : List Nat) (ids : List String) : List RecordV :=
  loadByIdsGo ids file.length file

/-! ## Generic association-list helpers (Python dicts with non-PyVal values) -/

/-- Dict lookup. -/
def alistGet {α : Type} : List (String × α) → String → Option α
  | [], _ => none
  | (a, b) :: t, k => if a = k then some b else alistGet t k

/-- Dict assignment: update an existing binding in place, else append. -/
def alistPut {α : Type} : List (String × α) → String → α → List (String × α)
  | [], k, v => [(k, v)]
  | (a, b) :: t, k, v => if a = k then (a, v) :: t else (a, b) :: alistPut t k v

/-- Dict deletion. -/
def alistRemove {α : Type} : List (String × α) → String → List (String × α)
  | [], _ => []
  | (a, b) :: t, k => if a = k then t else (a, b) :: alistRemove t k

/-! ## IndexManager (indexing.py)

The index cache and the pickled .idx files are kept in sync by every write
of indexing.py, so both are modelled as the single map below. -/

/-- The index of one collection: field → (stringified value → posting list). -/
abbrev IndexData := List (String × List (String × List String))

/-- IndexManager.create_index: an empty posting map per field, replacing any
prior index of the collection. -/
def createIndex (idx : List (String × IndexData)) (c : String) (fields : List String) :
    List (String × IndexData) :=
  alistPut idx c (fields.map fun f => (f, []))

/-- IndexManager.drop_index. -/
def dropIndex (idx : List (String × IndexData)) (c : String) : List (String × IndexData) :=
  alistRemove idx c

/-- IndexManager.update_index: no-op when the collection has no (or an
empty) index; otherwise append the record id to the posting list of
str(record.get(F, "")) for every indexed field F, unless already present.
record[_id] is a string at every call site of the engine. -/
def updateIndex (idx : List (String × IndexData)) (c : String) (record : RecordV) :
    List (String × IndexData) :=
  match alistGet idx c with
  | none => idx
  | some d =>
    if d.isEmpty then idx
    else
      match pyDictGet record "_id" with
      | some (.s rid) =>
        let d2 := d.map fun fv =>
          let v := pyStr ((pyDictGet record fv.1).getD (.s ""))
          let postings := (alistGet fv.2 v).getD []
          if postings.contains rid then fv
          else (fv.1, alistPut fv.2 v (postings ++ [rid]))
        alistPut idx c d2
      | _ => idx

/-- IndexManager.remove_from_index: drop the id from every posting list
(list.remove: first occurrence) and delete every now-empty value entry. -/
def removeFromIndex (idx : List (String × IndexData)) (c : String) (rid : String) :
    List (String × IndexData) :=
  match alistGet idx c with
  | none => idx
  | some d =>
    if d.isEmpty then idx
    else
      let d2 := d.map fun fv =>
        (fv.1,
          (fv.2.map fun ve => (ve.1, if ve.2.contains rid then ve.2.erase rid else ve.2)).filter
            fun ve => !ve.2.isEmpty)
      alistPut idx c d2

/-- IndexManager.can_use_index:
bool(index_data and any(key in index_data for key in query)). -/
def canUseIndex (idx : List (String × IndexData)) (c : String) (query : RecordV) : Bool :=
  match alistGet idx c with
  | none => false
  | some d => !d.isEmpty && query.any fun kv => (alistGet d kv.1).isSome

/-- IndexManager.query_index: starting from None, intersect the posting
lists of str(condition) over every query key that is an indexed field;
an untouched or empty result yields the empty id set. -/
def queryIndex (idx : List (String × IndexData)) (c : String) (query : RecordV) :
    List String :=
  match alistGet idx c with
  | none => []
  | some d =>
    if d.isEmpty then []
    else
      let step := fun (acc : Option (List String)) (kv : String × PyVal) =>
        match alistGet d kv.1 with
        | none => acc
        | some postings =>
          let ids := (alistGet postings (pyStr kv.2)).getD []
          match acc with
          | none => some ids
          | some cur => some (cur.filter fun i => ids.contains i)
      match query.foldl step none with
      | none => []
      | some ids => ids

/-! ## Engine state -/

/-- A deferred mutating closure of the transaction journal, with the values
captured at the public call (for insert, the pre-computed record id). -/
inductive PendingOp where
  | insOp (collection : String) (data : RecordV) (recordId : PyVal)
  | updOp (collection : String) (recordId : String) (patch : RecordV)
  | delOp (collection : String) (recordId : String)

/-- The state of one engine: the .fdb files of the database directory, the
index store, the write buffer, the buffer capacity and the transaction
journal.  A missing key in files means the collection file does not exist. -/
structure DBState where
  files : List (String × List Nat)
  index : List (String × IndexData)
  buffer : List (String × List (List Nat))
  bufferSize : Nat
  txActive : Bool
  txPending : List PendingOp

/-! ## BufferManager (buffer_manager.py) -/

/-- BufferManager.append_to_buffer. -/
def appendToBuffer (buf : List (String × List (List Nat))) (c : String)
    (frame : List Nat) : List (String × List (List Nat)) :=
  match alistGet buf c with
  | none => alistPut buf c [frame]
  | some frames => alistPut buf c (frames ++ [frame])

/-- BufferManager.is_buffer_full. -/
def isBufferFull (buf : List (String × List (List Nat))) (c : String) (size : Nat) : Bool :=
  match alistGet buf c with
  | none => false
  | some frames => size ≤ frames.length

/-- Append bytes to a collection file (Python open(path, ab) creates the
file when it does not exist). -/
def fileAppend (files : List (String × List Nat)) (c : String) (bs : List Nat) :
    List (String × List Nat) :=
  match alistGet files c with
  | none => alistPut files c bs
  | some old => alistPut files c (old ++ bs)

/-- BufferManager.flush_buffer: walk one collection (or, with none, every
collection) of the buffer.  buffer_manager.py never imports os, so the
os.path.join at line 52 raises NameError as soon as a targeted collection
has pending frames — before anything is opened or written, and the except
clause catches only IOError — so the state is never mutated; collections
without pending frames are skipped, and a flush that finds nothing to
write returns normally. -/
def flushBuffer (st : DBState) (target : Option String) : Except Err DBState :=
  let cols := match target with
    | some c => [c]
    | none => st.buffer.map Prod.fst
  if cols.any (fun col =>
      match alistGet st.buffer col with
      | some frames => !frames.isEmpty
      | none => false) then .error .nameError
  else .ok st

/-! ## TransactionManager (transaction_manager.py) -/

/-- TransactionManager.begin_transaction. -/
def beginTransaction (st : DBState) : Except Err DBState :=
  if st.txActive then .error .transactionError
  else .ok { st with txActive := true, txPending := [] }

/-- TransactionManager.rollback: discard the pending list and deactivate.
No snapshot of the buffer or the index is kept anywhere, so nothing else is
restored. -/
def rollback (st : DBState) : Except Err DBState :=
  if !st.txActive then .error .transactionError
  else .ok { st with txActive := false, txPending := [] }

/-! ## DataManager closures (data_manager.py) -/

/-- record[_id] == record_id for a decoded record (decode always stores a
string _id). -/
def idMatches (r : RecordV) (rid : String) : Bool :=
  match pyDictGet r "_id" with
  | some (.s x) => x == rid
  | _ => false

/-- The _insert closure of DataManager.insert: data.copy() (a value copy —
the caller dict stays untouched and the dict later mutated by encode_record
is the copy), set _id, encode, append to the buffer, update the index,
flush when the buffer is full. -/
def runInsertClosure (st : DBState) (c : String) (data : RecordV) (rid : PyVal) :
    Except Err DBState :=
  let dataWithId := dictInsert data "_id" rid
  match encodeRecord "" dataWithId with
  | .error e => .error e
  | .ok (dataWithId2, frame) =>
    let st2 := { st with buffer := appendToBuffer st.buffer c frame,
                         index := updateIndex st.index c dataWithId2 }
    if isBufferFull st2.buffer c st2.bufferSize then flushBuffer st2 (some c)
    else .ok st2

/-- Rewrite loop of _update/_delete: concatenated frames of all records. -/
def encodeAll (records : List RecordV) : Except Err (List Nat) :=
  match records with
  | [] => .ok []
  | r :: t =>
    match encodeRecord "" r with
    | .error e => .error e
    | .ok (_, frame) => (encodeAll t).map (frame ++ ·)

/-- The record-patch loop of _update: find the first record with the given
_id, merge the patch (dict.update) and restore _id; return the rewritten
list with the updated record. -/
def updateFirst (records : List RecordV) (rid : String) (patch : RecordV) :
    Option (List RecordV × RecordV) :=
  match records with
  | [] => none
  | r :: t =>
    if idMatches r rid then
      let r2 := dictInsert (patch.foldl (fun a kv => dictInsert a kv.1 kv.2) r) "_id" (.s rid)
      some (r2 :: t, r2)
    else
      match updateFirst t rid patch with
      | some (t2, ur) => some (r :: t2, ur)
      | none => none

/-- The _update closure of DataManager.update: load all records from the
file (an open of a meanwhile-removed file raises IOError → FluxDBError),
patch the matching record, rewrite the whole file, update the index.
Returns the updated flag of Python together with the state. -/
def runUpdateClosure (st : DBState) (c : String) (rid : String) (patch : RecordV) :
    Except Err (Bool × DBState) :=
  match alistGet st.files c with
  | none => .error .fluxError
  | some bytes =>
    match updateFirst (loadAllRecords bytes) rid patch with
    | none => .ok (false, st)
    | some (records2, ur) =>
      match encodeAll records2 with
      | .error e => .error e
      | .ok bytes2 =>
        .ok (true, { st with files := alistPut st.files c bytes2,
                             index := updateIndex st.index c ur })

/-- The _delete closure of DataManager.delete: load all records, drop those
with the given _id, rewrite, remove the id from the index.  Returns the
removed flag of Python together with the state. -/
def runDeleteClosure (st : DBState) (c : String) (rid : String) :
    Except Err (Bool × DBState) :=
  match alistGet st.files c with
  | none => .error .fluxError
  | some bytes =>
    let records := loadAllRecords bytes
    let kept := records.filter fun r => !idMatches r rid
    if kept.length < records.length then
      match encodeAll kept with
      | .error e => .error e
      | .ok bytes2 =>
        .ok (true, { st with files := alistPut st.files c bytes2,
                             index := removeFromIndex st.index c rid })
    else .ok (false, st)

/-- Execute one deferred closure (op[func](*args) inside commit, or the
immediate branch of add_to_transaction). -/
def runPending (op : PendingOp) (st : DBState) : Except Err DBState :=
  match op with
  | .insOp c data rid => runInsertClosure st c data rid
  | .updOp c rid patch => (runUpdateClosure st c rid patch).map Prod.snd
  | .delOp c rid => (runDeleteClosure st c rid).map Prod.snd

/-- Loop of TransactionManager.commit: run the pending closures in order;
on success clear the journal, deactivate and flush every buffer (a flush
of non-empty buffers raises NameError, caught by the except, whose
rollback then itself raises TransactionError because the journal was
already deactivated — so commit still surfaces TransactionError, the
buffers untouched); on an exception from a closure call rollback (which
only clears the journal) and surface TransactionError. -/
def commitOps (ops : List PendingOp) (st : DBState) : DBState × Option Err :=
  match ops with
  | [] =>
    match flushBuffer { st with txPending := [], txActive := false } none with
    | .ok st2 => (st2, none)
    | .error _ => ({ st with txPending := [], txActive := false }, some .transactionError)
  | op :: rest =>
    match runPending op st with
    | .ok st2 => commitOps rest st2
    | .error _ => ({ st with txPending := [], txActive := false }, some .transactionError)

/-- TransactionManager.commit.  The state is returned also on failure: the
Python engine object keeps the mutations already performed when commit
raises. -/
def commit (st : DBState) : DBState × Option Err :=
  if !st.txActive then (st, some .transactionError)
  else commitOps st.txPending st

/-! ## DataManager public operations (data_manager.py) -/

/-- DataManager.insert.  genId is the uuid4 string the call would draw.
Besides the Except result the caller-visible record dict after the call is
returned: the _id is set only on the internal copy inside the closure, so
it is the unchanged data on every path. -/
def DataManager.insert (st : DBState) (c : String) (data : RecordV) (genId : String) :
    Except Err (PyVal × DBState) × RecordV :=
  let recordId := (pyDictGet data "_id").getD (.s genId)
  match alistGet st.files c with
  | none => (.error .collectionNotFound, data)
  | some _ =>
    if st.txActive then
      (.ok (recordId, { st with txPending := st.txPending ++ [.insOp c data recordId] }),
        data)
    else
      match runPending (.insOp c data recordId) st with
      | .ok st2 => (.ok (recordId, st2), data)
      | .error e => (.error e, data)

/-- The operator branch of _filter_records for one query key: every
operator of the condition dict must hold; float(record value) is computed
per operator, a ValueError fails the clause.  $gt and $lt compare
numerically; an operand that is not a number raises TypeError in Python and
is modelled as a failed clause (never exercised); an unrecognised operator
falls through without failing the clause.  The $in operator takes a Python
list operand, which this value model does not contain, so such queries are
outside the model. -/
def opCondMatches (record : RecordV) (key : String) (cond : RecordV) : Bool :=
  cond.all fun opv =>
    let recordValue := (pyDictGet record key).getD (.s "")
    match (if pyTruthy recordValue then pyToFloat recordValue else some 0) with
    | none => false
    | some recordNum =>
      if opv.1 == "$gt" then
        match pyToFloat opv.2 with
        | some q => decide (q < recordNum)
        | none => false
      else if opv.1 == "$lt" then
        match pyToFloat opv.2 with
        | some q => decide (recordNum < q)
        | none => false
      else true

/-- The scalar branch of _filter_records:
record.get(key, "") != str(condition) fails the record; a non-string
stored value never equals the stringified condition. -/
def eqMatches (record : RecordV) (key : String) (cond : PyVal) : Bool :=
  match (pyDictGet record key).getD (.s "") with
  | .s w => w == pyStr cond
  | _ => false

/-- DataManager._filter_records. -/
def filterRecords (records : List RecordV) (query : RecordV) : List RecordV :=
  records.filter fun record =>
    query.all fun kc =>
      match kc.2 with
      | .dictv cond => opCondMatches record kc.1 cond
      | cond => eqMatches record kc.1 cond

/-- DataManager.find.  The sort argument is None in every scenario of this
development, so the sort branch is not modelled.  The flush raises
NameError whenever the collection has pending buffered frames (the name
os is unbound in buffer_manager.py), and find propagates it. -/
def DataManager.find (st : DBState) (c : String) (query : Option RecordV)
    (lim : Option Nat) (skip : Nat) : Except Err (List RecordV × DBState) :=
  match alistGet st.files c with
  | none => .error .collectionNotFound
  | some _ =>
    match flushBuffer st (some c) with
    | .error e => .error e
    | .ok st1 =>
    match alistGet st1.files c with
    | none => .error .fluxError
    | some bytes =>
      let qtruthy := match query with
        | some q => !q.isEmpty
        | none => false
      let records :=
        if qtruthy && canUseIndex st1.index c (query.getD []) then
          loadRecordsByIds bytes (queryIndex st1.index c (query.getD []))
        else loadAllRecords bytes
      let records := if qtruthy then filterRecords records (query.getD []) else records
      let records := records.drop skip
      let records := match lim with
        | some l => records.take l
        | none => records
      .ok (records, st1)

/-- DataManager.update: CollectionNotFound when the log file is missing;
otherwise defer or run the _update closure and return True unconditionally
(add_to_transaction discards the updated flag of the closure). -/
def DataManager.update (st : DBState) (c : String) (rid : String) (patch : RecordV) :
    Except Err (Bool × DBState) :=
  match alistGet st.files c with
  | none => .error .collectionNotFound
  | some _ =>
    if st.txActive then
      .ok (true, { st with txPending := st.txPending ++ [.updOp c rid patch] })
    else
      match runUpdateClosure st c rid patch with
      | .ok (_, st2) => .ok (true, st2)
      | .error e => .error e

/-- DataManager.delete: CollectionNotFound when the log file is missing;
otherwise defer or run the _delete closure and return True unconditionally
(add_to_transaction discards the removed flag of the closure). -/
def DataManager.delete (st : DBState) (c : String) (rid : String) :
    Except Err (Bool × DBState) :=
  match alistGet st.files c with
  | none => .error .collectionNotFound
  | some _ =>
    if st.txActive then
      .ok (true, { st with txPending := st.txPending ++ [.delOp c rid] })
    else
      match runDeleteClosure st c rid with
      | .ok (_, st2) => .ok (true, st2)
      | .error e => .error e

/-- DataManager.count: len(find(collection, query)) with
CollectionNotFound swallowed to 0. -/
def DataManager.count (st : DBState) (c : String) (query : Option RecordV) :
    Except Err (Nat × DBState) :=
  match DataManager.find st c query none 0 with
  | .ok (records, st2) => .ok (records.length, st2)
  | .error .collectionNotFound => .ok (0, st)
  | .error e => .error e

/-! ## DataManager aggregation (data_manager.py) -/

/-- acc.get(op) is truthy (a non-dict accumulator raises AttributeError in
Python; modelled as falsy, never exercised). -/
def truthyGet (a : RecordV) (k : String) : Bool :=
  match pyDictGet a k with
  | some v => pyTruthy v
  | none => false

/-- Python += of a float onto a running total. -/
def pyAddFloat : PyVal → Rat → PyVal
  | .intv n, q => .num (n + q)
  | .num p, q => .num (p + q)
  | v, _ => v

/-- Python += 1 onto a running count. -/
def pyAddOne : PyVal → PyVal
  | .intv n => .intv (n + 1)
  | .num p => .num (p + 1)
  | v => v

/-- Group initialisation of the $group stage: to the dict holding only _id,
add a 0 for every $sum and every $count accumulator (every other
accumulator key, e.g. $avg, gets no entry). -/
def accInit (accs : RecordV) (key : PyVal) : RecordV :=
  accs.foldl (fun g acc =>
    match acc.2 with
    | .dictv a =>
      if truthyGet a "$sum" then dictInsert g acc.1 (.intv 0)
      else if truthyGet a "$count" then dictInsert g acc.1 (.intv 0)
      else g
    | _ => g) [("_id", key)]

/-- Accumulation of one record into a group dict: $sum adds
float(record.get(field, 0)) (a ValueError is passed over), $count adds 1,
every other accumulator is skipped. -/
def accApply (accs : RecordV) (g : RecordV) (record : RecordV) : RecordV :=
  accs.foldl (fun g acc =>
    match acc.2 with
    | .dictv a =>
      if truthyGet a "$sum" then
        let v := match pyDictGet a "$sum" with
          | some (.s f) => (pyDictGet record f).getD (.intv 0)
          | _ => .intv 0
        match pyToFloat v with
        | some q => dictInsert g acc.1 (pyAddFloat ((pyDictGet g acc.1).getD (.intv 0)) q)
        | none => g
      else if truthyGet a "$count" then
        dictInsert g acc.1 (pyAddOne ((pyDictGet g acc.1).getD (.intv 0)))
      else g
    | _ => g) g

/-- Lookup in the grouped dict (keys are arbitrary Python values). -/
def groupLookup : List (PyVal × RecordV) → PyVal → Option RecordV
  | [], _ => none
  | (a, b) :: t, k => if PyVal.beq a k then some b else groupLookup t k

/-- Assignment in the grouped dict, keeping insertion order. -/
def groupPut : List (PyVal × RecordV) → PyVal → RecordV → List (PyVal × RecordV)
  | [], k, v => [(k, v)]
  | (a, b) :: t, k, v => if PyVal.beq a k then (a, v) :: t else (a, b) :: groupPut t k v

/-- The grouped-dict loop of the $group stage: per record, create the group
on first sight, then accumulate. -/
def groupFold (groupBy : PyVal) (accs : RecordV) (records : List RecordV) :
    List (PyVal × RecordV) :=
  records.foldl (fun grouped record =>
    let key := match groupBy with
      | .s f => (pyDictGet record f).getD .pynone
      | _ => .pynone
    let g0 := match groupLookup grouped key with
      | some g => g
      | none => accInit accs key
    groupPut grouped key (accApply accs g0 record)) []

/-- DataManager.aggregate: find all records, then run every $group stage;
CollectionNotFound is swallowed to []; a $group stage without _id raises
KeyError. -/
def DataManager.aggregate (st : DBState) (c : String) (pipeline : List RecordV) :
    Except Err (List RecordV × DBState) :=
  match DataManager.find st c none none 0 with
  | .error .collectionNotFound => .ok ([], st)
  | .error e => .error e
  | .ok (records0, st2) =>
    let run := pipeline.foldl (fun (acc : Except Err (List RecordV)) stage =>
      match acc with
      | .error e => .error e
      | .ok records =>
        match pyDictGet stage "$group" with
        | some (.dictv g) =>
          if g.isEmpty then .ok records
          else
            match pyDictGet g "_id" with
            | some groupBy =>
              let accs := g.filter fun kv => !(kv.1 == "_id")
              .ok ((groupFold groupBy accs records).map (·.2))
            | none => .error .keyError
        | some v => if pyTruthy v then .error .typeError else .ok records
        | none => .ok records) (.ok records0)
    match run with
    | .ok res => .ok (res, st2)
    | .error e => .error e

/-! ## CollectionManager (collection_manager.py) -/

/-- CollectionManager.create_collection: ValueError on an empty name, False
when the file already exists, else create the empty log file and, when
indexed fields are given (truthy), the index. -/
def createCollection (st : DBState) (c : String) (indexedFields : Option (List String)) :
    Except Err (Bool × DBState) :=
  if c.isEmpty then .error .valueError
  else
    match alistGet st.files c with
    | some _ => .ok (false, st)
    | none =>
      let st1 := { st with files := alistPut st.files c [] }
      match indexedFields with
      | some fields =>
        if fields.isEmpty then .ok (true, st1)
        else .ok (true, { st1 with index := createIndex st1.index c fields })
      | none => .ok (true, st1)

/-- CollectionManager.drop_collection: remove the log file and drop the
index (the write-buffer entry of the collection is left in place). -/
def dropCollection (st : DBState) (c : String) : Bool × DBState :=
  match alistGet st.files c with
  | none => (false, st)
  | some _ =>
    (true, { st with files := alistRemove st.files c, index := dropIndex st.index c })

/-! ## Public mutating calls (for the transaction theorems) -/

/-- One public mutating call, as a caller makes it between
begin_transaction and rollback. -/
inductive MutCall where
  | callInsert (c : String) (data : RecordV) (genId : String)
  | callUpdate (c : String) (rid : String) (patch : RecordV)
  | callDelete (c : String) (rid : String)

/-- Apply one public mutating call; a call that raises leaves the state as
it was (each of these calls raises, if at all, before any mutation). -/
def applyMutCall (m : MutCall) (st : DBState) : DBState :=
  match m with
  | .callInsert c data gid =>
    match (DataManager.insert st c data gid).1 with
    | .ok (_, st2) => st2
    | .error _ => st
  | .callUpdate c rid patch =>
    match DataManager.update st c rid patch with
    | .ok (_, st2) => st2
    | .error _ => st
  | .callDelete c rid =>
    match DataManager.delete st c rid with
    | .ok (_, st2) => st2
    | .error _ => st

/-- Apply a sequence of public mutating calls. -/
def applyMutCalls (ms : List MutCall) (st : DBState) : DBState :=
  ms.foldl (fun s m => applyMutCall m s) st

/-! ## Well-formed segment logs and truncated tails (for the loader theorems) -/

/-- The on-disk frame of a body: length prefix, then the body. -/
def frameOf (body : List Nat) : List Nat := pack32 body.length ++ body

/-- A well-formed segment log: a concatenation of frames. -/
def wfLog (frames : List (List Nat)) : List Nat := (frames.map frameOf).flatten

/-- A tail that is shorter than one complete frame: fewer than 4 bytes, or
a declared body length that overflows the remaining bytes. -/
def truncatedTail (t : List Nat) : Prop :=
  t.length < 4 ∨
    ∃ b0 b1 b2 b3 r, t = b0 :: b1 :: b2 :: b3 :: r ∧ r.length < unpack32 b0 b1 b2 b3

/-! ## The specification predicate of claim C6 -/

/-- Modelled from the spec: True iff an index exists and at least one
top-level query key is an indexed field with a non-operator (equality)
value.  Stated for comparison with canUseIndex, which is translated from
the source. -/
def specIndexUsable (idx : List (String × IndexData)) (c : String) (query : RecordV) : Bool :=
  match alistGet idx c with
  | none => false
  | some d =>
    query.any fun kv =>
      (alistGet d kv.1).isSome &&
        (match kv.2 with
          | .dictv _ => false
          | _ => true)

/-! ## Concrete scenario states -/

/-- The empty database directory, buffer capacity 1000 (the modular engine
clamps the capacity to at least 100; 1000 is the legacy default). -/
def st0 : DBState :=
  { files := [], index := [], buffer := [], bufferSize := 1000,
    txActive := false, txPending := [] }

/-- Fixed stand-ins for the uuid4 strings the engine draws. -/
def uuid1 : String := "00000000-0000-0000-0000-000000000001"

/-- Second fixed uuid4 stand-in. -/
def uuid2 : String := "00000000-0000-0000-0000-000000000002"

/-- Third fixed uuid4 stand-in. -/
def uuid3 : String := "00000000-0000-0000-0000-000000000003"

/-- Fourth fixed uuid4 stand-in. -/
def uuid4 : String := "00000000-0000-0000-0000-000000000004"

/-- State component of a successful engine call (the fallback is never hit
in the scenarios below). -/
def stateOf {α : Type} (e : Except Err (α × DBState)) (fallback : DBState) : DBState :=
  match e with
  | .ok (_, st) => st
  | .error _ => fallback

/-- The frame insert would encode for a record: the _id appended to the
caller's fields, exactly as the _insert closure builds and encodes it. -/
def insFrameOf (fields : RecordV) (gid : String) : List Nat :=
  match encodeRecord "" (dictInsert fields "_id" (PyVal.s gid)) with
  | .ok (_, f) => f
  | .error _ => []

/- C2 scenario: create users, insert one record. -/

/-- C2: state after create_collection(users). -/
def c2StA : DBState := stateOf (createCollection st0 "users" none) st0

/-- C2: the insert call. -/
def c2Ins := DataManager.insert c2StA "users" [("name", PyVal.s "ada"), ("age", PyVal.intv 36)] uuid1

/-- C2: state after the insert (record still buffered, file still empty). -/
def c2StB : DBState := stateOf c2Ins.1 st0

/- C4 scenario: the stock record resident in the log, operator update. -/

/-- C4: a state with the record (stock "10", _id uuid1) resident in the
log of collection c and nothing buffered — the configuration a successful
write of the inserted frame leaves on disk (a configuration that the
import_collection path also produces). -/
def c4St : DBState :=
  { files := [("c", insFrameOf [("stock", PyVal.s "10")] uuid1)], index := [],
    buffer := [], bufferSize := 1000, txActive := false, txPending := [] }

/-- C4: the operator patch of scenario S4. -/
def c4Patch : RecordV := [("$inc", PyVal.dictv [("stock", PyVal.intv 3)])]

/-- C4: state after update(c, id, patch). -/
def c4StD : DBState := stateOf (DataManager.update c4St "c" uuid1 c4Patch) st0

/- C5 scenario: a collection with one log-resident record. -/

/-- C5: a state holding collection c with exactly one record (id uuid1)
resident in the log and an empty write buffer. -/
def c5St : DBState :=
  { files := [("c", insFrameOf [("x", PyVal.s "1")] uuid1)], index := [],
    buffer := [], bufferSize := 1000, txActive := false, txPending := [] }

/-- C5: the bytes of the collection log of c5St. -/
def c5Bytes : List Nat := (alistGet c5St.files "c").getD []

/- C6 scenario: an indexed collection and an operator-only query. -/

/-- C6: a state with an index on price for items, one record (price 25,
id uuid1) resident in the log, its posting in the index, and an empty
write buffer — the configuration create_collection(items, [price]) plus a
successfully written insert leaves. -/
def c6St : DBState :=
  { files := [("items", insFrameOf [("price", PyVal.s "25")] uuid1)],
    index := [("items", [("price", [("25", [uuid1])])])],
    buffer := [], bufferSize := 1000, txActive := false, txPending := [] }

/-- C6: the operator-only query on the indexed field. -/
def c6Query : RecordV := [("price", PyVal.dictv [("$gt", PyVal.intv 10)])]

/-- C6: the bytes of the items log of c6St. -/
def c6Bytes : List Nat := (alistGet c6St.files "items").getD []

/- C9 scenario: four records over two departments and the S6 pipeline. -/

/-- C9: state with collection emp holding the four records of scenario S6. -/
def c9St : DBState :=
  stateOf (DataManager.insert
    (stateOf (DataManager.insert
      (stateOf (DataManager.insert
        (stateOf (DataManager.insert
          (stateOf (createCollection st0 "emp" none) st0)
          "emp" [("dept", PyVal.s "A"), ("salary", PyVal.s "100")] uuid1).1 st0)
        "emp" [("dept", PyVal.s "A"), ("salary", PyVal.s "200")] uuid2).1 st0)
      "emp" [("dept", PyVal.s "B"), ("salary", PyVal.s "300")] uuid3).1 st0)
    "emp" [("dept", PyVal.s "B"), ("salary", PyVal.s "400")] uuid4).1 st0

/-- C9: the S6 aggregation pipeline with $sum, $count and $avg. -/
def c9Pipeline : List RecordV :=
  [[("$group", PyVal.dictv
      [("_id", PyVal.s "dept"),
       ("total", PyVal.dictv [("$sum", PyVal.s "salary")]),
       ("n", PyVal.dictv [("$count", PyVal.boolv true)]),
       ("avg", PyVal.dictv [("$avg", PyVal.s "salary")])])]]

/-- C9: the group the engine actually produces for dept A. -/
def c9GroupA : RecordV := [("_id", PyVal.s "A"), ("total", PyVal.num 300), ("n", PyVal.intv 2)]

/-- C9: the group the engine actually produces for dept B. -/
def c9GroupB : RecordV := [("_id", PyVal.s "B"), ("total", PyVal.num 700), ("n", PyVal.intv 2)]

/-- C9: the S6 records resident in the emp log with an empty buffer — the
configuration a successful write of the four inserted frames leaves. -/
def c9DiskSt : DBState :=
  { files := [("emp",
      insFrameOf [("dept", PyVal.s "A"), ("salary", PyVal.s "100")] uuid1 ++
      insFrameOf [("dept", PyVal.s "A"), ("salary", PyVal.s "200")] uuid2 ++
      insFrameOf [("dept", PyVal.s "B"), ("salary", PyVal.s "300")] uuid3 ++
      insFrameOf [("dept", PyVal.s "B"), ("salary", PyVal.s "400")] uuid4)],
    index := [], buffer := [], bufferSize := 1000, txActive := false, txPending := [] }

/- C1 scenario: a transaction whose commit fails halfway. -/

/-- C1: state with two empty collections c1 and c2, before the transaction. -/
def c1PreBegin : DBState :=
  stateOf (createCollection (stateOf (createCollection st0 "c1" none) st0) "c2" none) st0

/-- C1: the state at the moment commit is called: a transaction holding a
deferred insert into c1 and a deferred update of c2, where c2 was dropped
after the update call was queued (so its closure will raise during commit). -/
def c1TxState : DBState :=
  (dropCollection
    (stateOf (DataManager.update
      (stateOf (DataManager.insert
        (match beginTransaction c1PreBegin with
          | .ok st => st
          | .error _ => st0)
        "c1" [("x", PyVal.s "1")] uuid1).1 st0)
      "c2" "y" [("z", PyVal.s "2")]) st0)
    "c2").2

/- C7 witness record and frame. -/

/-- C7: a concrete record for the round-trip witness. -/
def c7Rec : RecordV := [("_id", PyVal.s uuid1), ("name", PyVal.s "ada"), ("age", PyVal.s "36")]

/-- C7: the dict returned by encode_record on c7Rec. -/
def c7Mutated : RecordV :=
  match encodeRecord "" c7Rec with
  | .ok (d, _) => d
  | .error _ => []

/-- C7: the frame produced by encode_record on c7Rec. -/
def c7Frame : List Nat :=
  match encodeRecord "" c7Rec with
  | .ok (_, f) => f
  | .error _ => []

/- C8 witness frames and tail. -/

/-- C8: the frame body of a small encoded record for the truncation
witness. -/
def c8Body : List Nat :=
  match encodeRecord "" [("_id", PyVal.s uuid2), ("k", PyVal.s "v")] with
  | .ok (_, f) => f.drop 4
  | .error _ => []

/-- C8: two concrete frame bodies for the truncation witness (the first a
well-formed encoded record, the second arbitrary bytes that decode to no
record). -/
def c8Frames : List (List Nat) := [c8Body, [7, 7, 7]]

/-- C8: a garbage tail whose declared length overflows the file end. -/
def c8Tail : List Nat := [255, 255, 255, 255, 1, 2, 3]

/-! ## Helper lemmas -/

/-- During an active transaction a public mutating call only queues a
closure (or raises before mutating anything): buffer, index and the active
flag are untouched. -/
theorem applyMutCall_preserves (m : MutCall) (st : DBState) (h : st.txActive = true) :
    (applyMutCall m st).buffer = st.buffer ∧ (applyMutCall m st).index = st.index ∧
      (applyMutCall m st).txActive = true := by
  cases m with
  | callInsert c data gid =>
    unfold applyMutCall DataManager.insert
    cases hf : alistGet st.files c <;> simp [h, hf]
  | callUpdate c rid patch =>
    unfold applyMutCall DataManager.update
    cases hf : alistGet st.files c <;> simp [h, hf]
  | callDelete c rid =>
    unfold applyMutCall DataManager.delete
    cases hf : alistGet st.files c <;> simp [h, hf]

/-- During an active transaction a whole sequence of public mutating calls
leaves buffer, index and the active flag untouched. -/
theorem applyMutCalls_preserves (ms : List MutCall) (st : DBState) (h : st.txActive = true) :
    (applyMutCalls ms st).buffer = st.buffer ∧ (applyMutCalls ms st).index = st.index ∧
      (applyMutCalls ms st).txActive = true := by
  induction ms generalizing st with
  | nil => exact ⟨rfl, rfl, h⟩
  | cons m t ih =>
    have h1 := applyMutCall_preserves m st h
    have h2 := ih (applyMutCall m st) h1.2.2
    have hfold : applyMutCalls (m :: t) st = applyMutCalls t (applyMutCall m st) := rfl
    exact ⟨hfold ▸ h2.1.trans h1.1, hfold ▸ h2.2.1.trans h1.2.1, hfold ▸ h2.2.2⟩

/-- Taking exactly the length of the left part of an append. -/
theorem take_append_len {α : Type} (l1 l2 : List α) : (l1 ++ l2).take l1.length = l1 := by
  induction l1 with
  | nil => rfl
  | cons a t ih => simp [ih]

/-- Dropping exactly the length of the left part of an append. -/
theorem drop_append_len {α : Type} (l1 l2 : List α) : (l1 ++ l2).drop l1.length = l2 := by
  induction l1 with
  | nil => rfl
  | cons a t ih => simp [ih]

/-- Unpacking the four bytes of pack32 recovers the length. -/
theorem unpack32_pack32 (n : Nat) (h : n < 4294967296) :
    unpack32 (n / 16777216 % 256) (n / 65536 % 256) (n / 256 % 256) (n % 256) = n := by
  unfold unpack32
  omega

/-- The loader stops cleanly on a truncated tail, whatever the fuel. -/
theorem loadFramesGo_truncated (t : List Nat) (ht : truncatedTail t) (fuel : Nat) :
    loadFramesGo fuel t = [] := by
  cases fuel with
  | zero => rfl
  | succ f =>
    rcases ht with h | ⟨b0, b1, b2, b3, r, rfl, hr⟩
    · match t, h with
      | [], _ => rfl
      | [_], _ => rfl
      | [_, _], _ => rfl
      | [_, _, _], _ => rfl
    · simp [loadFramesGo, hr]

/-- Every frame contributes at least one byte to a well-formed log. -/
theorem length_le_wfLog (frames : List (List Nat)) :
    frames.length ≤ (wfLog frames).length := by
  induction frames with
  | nil => simp [wfLog]
  | cons b bs ih =>
    simp only [wfLog, List.map_cons, List.flatten_cons, List.length_append, List.length_cons]
    have : (frameOf b).length = 4 + b.length := by
      simp [frameOf, pack32]
      omega
    simp only [wfLog] at ih
    omega

/-- Scanning a well-formed log followed by anything yields the decoded
records of its frames, then continues on the rest with the leftover fuel. -/
theorem loadFramesGo_wfLog (frames : List (List Nat)) (t : List Nat) (f : Nat)
    (hf : ∀ b ∈ frames, b.length < 4294967296) :
    loadFramesGo (frames.length + f) (wfLog frames ++ t) =
      frames.filterMap decodeRecord ++ loadFramesGo f t := by
  induction frames generalizing t with
  | nil => simp [wfLog]
  | cons b bs ih =>
    have hb : b.length < 4294967296 := hf b (by simp)
    have hshape : wfLog (b :: bs) ++ t =
        (b.length / 16777216 % 256) :: (b.length / 65536 % 256) :: (b.length / 256 % 256) ::
          (b.length % 256) :: (b ++ (wfLog bs ++ t)) := by
      simp [wfLog, frameOf, pack32]
    have hfuel : (b :: bs).length + f = (bs.length + f) + 1 := by
      simp [List.length_cons]
      omega
    rw [hshape, hfuel]
    have hlen : ¬ ((b ++ (wfLog bs ++ t)).length < unpack32 (b.length / 16777216 % 256)
        (b.length / 65536 % 256) (b.length / 256 % 256) (b.length % 256)) := by
      rw [unpack32_pack32 b.length hb]
      simp
    rw [loadFramesGo]
    simp only [hlen, if_false, unpack32_pack32 b.length hb, take_append_len, drop_append_len]
    have ihb := ih t (fun x hx => hf x (List.mem_cons_of_mem b hx))
    cases hdec : decodeRecord b <;> simp [hdec, ihb, List.filterMap_cons]

/-- Packing the numeric value of a character back into a Char. -/
theorem char_ofNat_toNat (c : Char) : Char.ofNat c.toNat = c := by
  unfold Char.ofNat
  split
  · obtain ⟨⟨⟨⟨v, hv⟩⟩⟩, hvalid⟩ := c
    rfl
  · rename_i h
    exact absurd c.valid h

/-- The decoder yields nothing on no input, whatever the fuel. -/
theorem utf8DecodeGo_nil (f : Nat) : utf8DecodeGo f [] = [] := by
  cases f <;> rfl

/-- One decoding step over one encoded character: exactly one unit of fuel
is consumed. -/
theorem utf8DecodeGo_char (c : Char) (rest : List Nat) (f : Nat) :
    utf8DecodeGo (f + 1) (utf8Char c ++ rest) = c :: utf8DecodeGo f rest := by
  have hofn := char_ofNat_toNat c
  have hv : c.toNat < 55296 ∨ 57343 < c.toNat ∧ c.toNat < 1114112 := c.valid
  unfold utf8Char
  by_cases h1 : c.toNat < 128
  · simp only [h1, if_true, List.cons_append, List.nil_append]
    simp [utf8DecodeGo, h1, hofn]
  · by_cases h2 : c.toNat < 2048
    · simp only [h1, h2, if_false, if_true, List.cons_append, List.nil_append]
      have e1 : ¬ (192 + c.toNat / 64 < 128) := by omega
      have e2 : ¬ (192 + c.toNat / 64 < 192) := by omega
      have e3 : 192 + c.toNat / 64 < 224 := by omega
      have e4 : 128 ≤ 128 + c.toNat % 64 := by omega
      have e5 : 128 + c.toNat % 64 < 192 := by omega
      have e6 : 128 ≤ c.toNat := by omega
      have e7 : c.toNat / 64 * 64 + c.toNat % 64 = c.toNat := by omega
      simp [utf8DecodeGo, e1, e2, e3, e4, e5, e6, e7, hofn]
    · by_cases h3 : c.toNat < 65536
      · simp only [h1, h2, h3, if_false, if_true, List.cons_append, List.nil_append]
        have e1 : ¬ (224 + c.toNat / 4096 < 128) := by omega
        have e2 : ¬ (224 + c.toNat / 4096 < 192) := by omega
        have e3 : ¬ (224 + c.toNat / 4096 < 224) := by omega
        have e4 : 224 + c.toNat / 4096 < 240 := by omega
        have e5 : 128 ≤ 128 + c.toNat / 64 % 64 := by omega
        have e6 : 128 + c.toNat / 64 % 64 < 192 := by omega
        have e5b : 128 ≤ 128 + c.toNat % 64 := by omega
        have e6b : 128 + c.toNat % 64 < 192 := by omega
        have e7 : c.toNat / 4096 * 4096 + c.toNat / 64 % 64 * 64 + c.toNat % 64 = c.toNat := by
          omega
        have e8 : 2048 ≤ c.toNat := by omega
        rcases hv with hlow | hhigh
        · have e9 : ¬ (55296 ≤ c.toNat) := by omega
          simp [utf8DecodeGo, e1, e2, e3, e4, e5, e6, e5b, e6b, e7, e8, e9, hofn]
        · have e9 : ¬ (c.toNat < 57344) := by omega
          simp [utf8DecodeGo, e1, e2, e3, e4, e5, e6, e5b, e6b, e7, e8, e9, hofn]
      · simp only [h1, h2, h3, if_false, List.cons_append, List.nil_append]
        have hup : c.toNat < 1114112 := by omega
        have e1 : ¬ (240 + c.toNat / 262144 < 128) := by omega
        have e2 : ¬ (240 + c.toNat / 262144 < 192) := by omega
        have e3 : ¬ (240 + c.toNat / 262144 < 224) := by omega
        have e4 : ¬ (240 + c.toNat / 262144 < 240) := by omega
        have e4b : 240 + c.toNat / 262144 < 248 := by omega
        have e5 : 128 ≤ 128 + c.toNat / 4096 % 64 := by omega
        have e6 : 128 + c.toNat / 4096 % 64 < 192 := by omega
        have e5b : 128 ≤ 128 + c.toNat / 64 % 64 := by omega
        have e6b : 128 + c.toNat / 64 % 64 < 192 := by omega
        have e5c : 128 ≤ 128 + c.toNat % 64 := by omega
        have e6c : 128 + c.toNat % 64 < 192 := by omega
        have e7 : c.toNat / 262144 * 262144 + c.toNat / 4096 % 64 * 4096 +
            c.toNat / 64 % 64 * 64 + c.toNat % 64 = c.toNat := by omega
        have e8 : 65536 ≤ c.toNat := by omega
        simp [utf8DecodeGo, e1, e2, e3, e4, e4b, e5, e6, e5b, e6b, e5c, e6c, e7, e8, hup, hofn]

/-- Decoding the encoding of a character list followed by anything: each
character consumes one unit of fuel. -/
theorem utf8DecodeGo_str (s : List Char) (rest : List Nat) (f : Nat) :
    utf8DecodeGo (f + s.length) ((s.map utf8Char).flatten ++ rest) =
      s ++ utf8DecodeGo f rest := by
  induction s generalizing rest with
  | nil => simp
  | cons c s2 ih =>
    have hfuel : f + (c :: s2).length = (f + s2.length) + 1 := by simp; omega
    have hshape : ((c :: s2).map utf8Char).flatten ++ rest =
        utf8Char c ++ ((s2.map utf8Char).flatten ++ rest) := by simp
    rw [hfuel, hshape, utf8DecodeGo_char, ih]
    rfl

/-- Every character encodes to at least one byte. -/
theorem utf8Char_length_pos (c : Char) : 1 ≤ (utf8Char c).length := by
  unfold utf8Char
  dsimp only
  split_ifs <;> simp

/-- A string never has more characters than UTF-8 bytes. -/
theorem length_le_utf8 (s : List Char) : s.length ≤ ((s.map utf8Char).flatten).length := by
  induction s with
  | nil => simp
  | cons c t ih =>
    have := utf8Char_length_pos c
    simp only [List.map_cons, List.flatten_cons, List.length_append, List.length_cons]
    omega

/-- The UTF-8 round-trip on whole strings: decode (errors=ignore) of the
encoding is the identity. -/
theorem utf8DecodeStr_utf8Str (w : String) : utf8DecodeStr (utf8Str w) = w := by
  unfold utf8DecodeStr utf8DecodeCore utf8Str
  have hge := length_le_utf8 w.data
  have hsplit : ((w.data.map utf8Char).flatten).length =
      (((w.data.map utf8Char).flatten).length - w.data.length) + w.data.length := by omega
  rw [hsplit]
  have := utf8DecodeGo_str w.data []
    (((w.data.map utf8Char).flatten).length - w.data.length)
  rw [List.append_nil] at this
  rw [this, utf8DecodeGo_nil, List.append_nil]

/-- Lookup after a Python dict assignment. -/
theorem pyDictGet_dictInsert (d : RecordV) (k : String) (v : PyVal) (k2 : String) :
    pyDictGet (dictInsert d k v) k2 = if k2 = k then some v else pyDictGet d k2 := by
  induction d with
  | nil =>
    by_cases h : k2 = k
    · subst h
      simp [dictInsert, pyDictGet]
    · simp [dictInsert, pyDictGet, h, Ne.symm h]
  | cons a t ih =>
    obtain ⟨ak, av⟩ := a
    by_cases hak : ak = k
    · subst hak
      by_cases h2 : k2 = ak
      · subst h2
        simp [dictInsert, pyDictGet]
      · simp [dictInsert, pyDictGet, h2, Ne.symm h2]
    · by_cases h2 : k2 = k
      · subst h2
        have : ak ≠ k2 := hak
        simp [dictInsert, pyDictGet, hak, this, ih]
      · by_cases h3 : ak = k2
        · subst h3
          simp [dictInsert, pyDictGet, hak, h2]
        · simp [dictInsert, pyDictGet, hak, h2, h3, ih]

/-- Assigning to a key the value it already holds leaves the dict
unchanged. -/
theorem dictInsert_self (d : RecordV) (k : String) (v : PyVal)
    (h : pyDictGet d k = some v) : dictInsert d k v = d := by
  induction d with
  | nil => simp [pyDictGet] at h
  | cons a t ih =>
    obtain ⟨ak, av⟩ := a
    by_cases hak : ak = k
    · subst hak
      have hv : av = v := by simpa [pyDictGet] using h
      subst hv
      simp [dictInsert]
    · simp only [pyDictGet, if_neg hak] at h
      simp [dictInsert, hak, ih h]

/-- Dict lookup distributes over append as a left-biased choice. -/
theorem pyDictGet_append (l1 l2 : RecordV) (k : String) :
    pyDictGet (l1 ++ l2) k = (pyDictGet l1 k).or (pyDictGet l2 k) := by
  induction l1 with
  | nil => simp [pyDictGet]
  | cons a t ih =>
    obtain ⟨ak, av⟩ := a
    by_cases h : ak = k <;> simp [pyDictGet, h, ih]

/-- Lookup in a left fold of dict assignments: the last assignment of the
key wins, else the initial dict answers. -/
theorem pyDictGet_foldl_dictInsert (r : RecordV) (init : RecordV) (k : String) :
    pyDictGet (r.foldl (fun a kv => dictInsert a kv.1 kv.2) init) k =
      (pyDictGet r.reverse k).or (pyDictGet init k) := by
  induction r generalizing init with
  | nil => simp [pyDictGet]
  | cons a t ih =>
    obtain ⟨ak, av⟩ := a
    rw [List.foldl_cons, ih, List.reverse_cons, pyDictGet_append, pyDictGet_dictInsert]
    by_cases h : k = ak
    · subst h
      cases pyDictGet t.reverse k <;> simp [pyDictGet, Option.or]
    · cases pyDictGet t.reverse k <;> simp [pyDictGet, h, Ne.symm h, Option.or]

/-- A key outside the key list is not found. -/
theorem pyDictGet_eq_none_of_not_mem (d : RecordV) (k : String)
    (h : k ∉ d.map Prod.fst) : pyDictGet d k = none := by
  induction d with
  | nil => rfl
  | cons a t ih =>
    simp only [List.map_cons, List.mem_cons, not_or] at h
    simp [pyDictGet, Ne.symm h.1, ih h.2]

/-- With pairwise-distinct keys, lookup in the reversed dict agrees with
lookup in the dict. -/
theorem pyDictGet_reverse_of_nodup (r : RecordV) (hn : (r.map Prod.fst).Nodup)
    (k : String) : pyDictGet r.reverse k = pyDictGet r k := by
  induction r with
  | nil => rfl
  | cons a t ih =>
    obtain ⟨ak, av⟩ := a
    simp only [List.map_cons, List.nodup_cons] at hn
    rw [List.reverse_cons, pyDictGet_append, ih hn.2]
    by_cases h : ak = k
    · subst h
      rw [pyDictGet_eq_none_of_not_mem t ak hn.1]
      simp [pyDictGet, Option.or]
    · cases hc : pyDictGet t k <;> simp [pyDictGet, h, Option.or, hc]

/-- One step of the field parser over one exactly-encoded field. -/
theorem decodeFields_cons (k w : String) (rest : List Nat) (n : Nat) (acc : RecordV)
    (hk : (utf8Str k).length < 4294967296) (hw : (utf8Str w).length < 4294967296) :
    decodeFields (n + 1) (encOneField (k, PyVal.s w) ++ rest) acc =
      decodeFields n rest (dictInsert acc k (PyVal.s w)) := by
  have hshape : encOneField (k, PyVal.s w) ++ rest =
      ((utf8Str k).length / 16777216 % 256) :: ((utf8Str k).length / 65536 % 256) ::
        ((utf8Str k).length / 256 % 256) :: ((utf8Str k).length % 256) ::
        (utf8Str k ++ (((utf8Str w).length / 16777216 % 256) ::
          ((utf8Str w).length / 65536 % 256) :: ((utf8Str w).length / 256 % 256) ::
          ((utf8Str w).length % 256) :: (utf8Str w ++ rest))) := by
    simp [encOneField, pack32, pyStr]
  rw [hshape]
  have h1 : ¬ ((utf8Str k ++ (((utf8Str w).length / 16777216 % 256) ::
      ((utf8Str w).length / 65536 % 256) :: ((utf8Str w).length / 256 % 256) ::
      ((utf8Str w).length % 256) :: (utf8Str w ++ rest))).length < (utf8Str k).length) := by
    simp
  have h2 : ¬ ((utf8Str w ++ rest).length < (utf8Str w).length) := by simp
  simp only [decodeFields, unpack32_pack32 _ hk, unpack32_pack32 _ hw, h1, h2,
    if_false, take_append_len, drop_append_len, utf8DecodeStr_utf8Str]

/-- The field parser over the exact encoding of a field list with string
values consumes everything and folds the dict assignments. -/
theorem decodeFields_enc (fields : List (String × PyVal)) (acc : RecordV)
    (hstr : ∀ kv ∈ fields, ∃ w, kv.2 = PyVal.s w)
    (hfit : ∀ kv ∈ fields, (utf8Str kv.1).length < 4294967296 ∧
      (utf8Str (pyStr kv.2)).length < 4294967296) :
    decodeFields fields.length ((fields.map encOneField).flatten) acc =
      some (fields.foldl (fun a kv => dictInsert a kv.1 kv.2) acc) := by
  induction fields generalizing acc with
  | nil => rfl
  | cons kv t ih =>
    obtain ⟨k, v⟩ := kv
    obtain ⟨w, hw⟩ := hstr (k, v) (by simp)
    subst hw
    have hfitk := hfit (k, PyVal.s w) (by simp)
    have hshape : (((k, PyVal.s w) :: t).map encOneField).flatten =
        encOneField (k, PyVal.s w) ++ (t.map encOneField).flatten := by simp
    rw [List.length_cons, hshape, decodeFields_cons k w _ t.length acc hfitk.1 hfitk.2]
    rw [ih (dictInsert acc k (PyVal.s w)) (fun x hx => hstr x (by simp [hx]))
      (fun x hx => hfit x (by simp [hx]))]
    rfl

/-! ## Claim theorems -/

/-- C1 counterexample: in a transaction holding a deferred insert into c1
and a deferred update of the meanwhile-dropped c2, commit runs the insert
(mutating the write buffer), then the update closure raises and commit
invokes rollback automatically; the surviving state still holds the c1
frame in its buffer, unlike the empty buffer from before
begin_transaction — the automatic rollback restored nothing. -/
theorem c1_auto_rollback_counterexample :
    (commit c1TxState).2 = some Err.transactionError ∧
    (commit c1TxState).1.txActive = false ∧
    (commit c1TxState).1.txPending.length = 0 ∧
    c1PreBegin.buffer = [] ∧
    (commit c1TxState).1.buffer ≠ c1PreBegin.buffer :=
  ⟨rfl, rfl, rfl, rfl, by decide⟩

/-- C1 amended: a rollback called directly by the caller does restore the
buffer and index to their state from immediately before begin_transaction,
for every sequence of public mutating calls made in between — the calls
are deferred and touch neither; the restoration does not extend to the
rollback invoked automatically when a pending operation raises during
commit, because the operations commit already executed leave their buffer
and index mutations in place. -/
theorem c1_direct_rollback_amended (st : DBState) (ms : List MutCall)
    (h : st.txActive = false) :
    ∃ st1 st2, beginTransaction st = .ok st1 ∧
      rollback (applyMutCalls ms st1) = .ok st2 ∧
      st2.buffer = st.buffer ∧ st2.index = st.index := by
  have hb : beginTransaction st = .ok { st with txActive := true, txPending := [] } := by
    simp [beginTransaction, h]
  have hp := applyMutCalls_preserves ms { st with txActive := true, txPending := [] } rfl
  refine ⟨{ st with txActive := true, txPending := [] },
    { applyMutCalls ms { st with txActive := true, txPending := [] } with
        txActive := false, txPending := [] }, hb, ?_, ?_, ?_⟩
  · simp [rollback, hp.2.2]
  · simpa using hp.1
  · simpa using hp.2.1

/-- C1 witness: the amended theorem applied to the empty engine and a
single deferred insert call. -/
theorem c1_direct_rollback_amended_witness :
    st0.txActive = false ∧
    (∃ st1 st2, beginTransaction st0 = .ok st1 ∧
      rollback (applyMutCalls [MutCall.callInsert "c" [] uuid1] st1) = .ok st2 ∧
      st2.buffer = st0.buffer ∧ st2.index = st0.index) :=
  ⟨rfl, c1_direct_rollback_amended st0 [MutCall.callInsert "c" [] uuid1] rfl⟩

/-- C2 (code bug): with no transaction active, after create_collection(users)
and insert(users, (name ada, age 36)) returning uuid1, the encoded record
sits in the write buffer (the users log file is still empty, one frame
buffered) — and find(users, (name ada)) does not return the record: the
flush find performs first raises NameError, because buffer_manager.py
calls os.path.join at line 52 without ever importing os and its except
clause catches only IOError.  The spec describes the evident intent of
the read-triggered flush; the missing import makes every flush of a
non-empty buffer crash. -/
theorem c2_find_crashes_on_flush :
    c2Ins.1.map Prod.fst = .ok (PyVal.s uuid1) ∧
    alistGet c2StB.files "users" = some [] ∧
    (alistGet c2StB.buffer "users").map List.length = some 1 ∧
    DataManager.find c2StB "users" (some [("name", PyVal.s "ada")]) none 0 =
      .error .nameError :=
  ⟨rfl, rfl, rfl, rfl⟩

/-- C3 counterexample: with no log file for collection ghost, insert does
not auto-create and does not succeed: it returns CollectionNotFound (while
count still swallows to 0), refuting the claimed insert auto-creation. -/
theorem c3_insert_no_autocreate_counterexample :
    (DataManager.insert st0 "ghost" [("x", PyVal.s "1")] uuid1).1 =
      .error .collectionNotFound ∧
    DataManager.count st0 "ghost" none = .ok (0, st0) ∧
    alistGet st0.files "ghost" = none :=
  ⟨rfl, rfl, rfl⟩

/-- C3 amended: for every collection whose log file does not exist, insert
raises CollectionNotFound instead of auto-creating, count swallows the
CollectionNotFound of its find to 0, and find raises CollectionNotFound —
so the write path insert raises it just like the read paths. -/
theorem c3_missing_collection_amended (st : DBState) (c : String) (data : RecordV)
    (gid : String) (q : Option RecordV) (h : alistGet st.files c = none) :
    (DataManager.insert st c data gid).1 = .error .collectionNotFound ∧
    DataManager.count st c q = .ok (0, st) ∧
    DataManager.find st c q none 0 = .error .collectionNotFound := by
  refine ⟨?_, ?_, ?_⟩ <;>
    simp [DataManager.insert, DataManager.count, DataManager.find, h]

/-- C3 witness: the amended theorem applied to the empty engine. -/
theorem c3_missing_collection_amended_witness :
    alistGet st0.files "nope" = none ∧
    ((DataManager.insert st0 "nope" [] uuid1).1 = .error .collectionNotFound ∧
      DataManager.count st0 "nope" none = .ok (0, st0) ∧
      DataManager.find st0 "nope" none none 0 = .error .collectionNotFound) :=
  ⟨rfl, c3_missing_collection_amended st0 "nope" [] uuid1 none rfl⟩

/-- C4 counterexample: for the log-resident record (stock "10", id uuid1)
and update(c, id, ($inc (stock 3))), the record a subsequent find returns
still carries stock "10" — float of it is 10, not 13 — because update
applied no operator semantics: the $inc key was merged in literally as a
field.  (The spec's own S4 trace never reaches the update: the read it
interposes crashes in the flush, NameError from the missing import os in
buffer_manager.py; the state used here has the record already resident in
the log and nothing buffered, so no flush intervenes.) -/
theorem c4_operator_patch_counterexample :
    (DataManager.find c4StD "c" none none 0).map Prod.fst =
      .ok [[("_id", PyVal.s uuid1), ("stock", PyVal.s "10"),
            ("$inc", PyVal.s "\x7b\x27stock\x27: 3\x7d")]] ∧
    parseFloat "10" = some 10 ∧ (10 : Rat) ≠ 13 :=
  ⟨rfl, rfl, by decide⟩

/-- C4 amended: update has no operator semantics at all — the patch is
merged literally via dict.update, so a top-level $inc key becomes an
ordinary stored field whose value is the str() of its operand dict, and
the field named inside $inc keeps its old value: after insert of
stock "10" resident in the log, update(c, id, ($inc (stock 3))) rewrites
the stored record to (_id, stock "10", "$inc" "(stock: 3)"). -/
theorem c4_literal_merge_amended :
    DataManager.update c4St "c" uuid1 c4Patch = .ok (true, c4StD) ∧
    loadAllRecords ((alistGet c4StD.files "c").getD []) =
      [[("_id", PyVal.s uuid1), ("stock", PyVal.s "10"),
        ("$inc", PyVal.s "\x7b\x27stock\x27: 3\x7d")]] :=
  ⟨rfl, rfl⟩

/-- C5 counterexample: on a collection holding exactly one record (with id
uuid1), update and delete called with the absent id "absent" both return
true and leave the whole state — including the log — unchanged, although
no record was modified or removed: "returns true iff actually
modified/removed" fails. -/
theorem c5_return_value_counterexample :
    DataManager.update c5St "c" "absent" [("x", PyVal.s "1")] = .ok (true, c5St) ∧
    DataManager.delete c5St "c" "absent" = .ok (true, c5St) ∧
    (loadAllRecords c5Bytes).all (fun r => !idMatches r "absent") = true :=
  ⟨rfl, rfl, rfl⟩

/-- C5 amended: whenever update or delete returns a value at all (the
collection file exists and the inner operation did not raise), that value
is true — the modified/removed flag computed by the inner closure is
discarded by add_to_transaction, so false is never returned, in particular
also when no stored record has the given id. -/
theorem c5_update_delete_return_true (st : DBState) (c rid : String) (patch : RecordV)
    (b1 b2 : Bool) (st1 st2 : DBState)
    (h1 : DataManager.update st c rid patch = .ok (b1, st1))
    (h2 : DataManager.delete st c rid = .ok (b2, st2)) :
    b1 = true ∧ b2 = true := by
  constructor
  · unfold DataManager.update at h1
    split at h1
    · simp at h1
    · split at h1
      · simp only [Except.ok.injEq, Prod.mk.injEq] at h1
        exact h1.1.symm
      · split at h1
        · simp only [Except.ok.injEq, Prod.mk.injEq] at h1
          exact h1.1.symm
        · simp at h1
  · unfold DataManager.delete at h2
    split at h2
    · simp at h2
    · split at h2
      · simp only [Except.ok.injEq, Prod.mk.injEq] at h2
        exact h2.1.symm
      · split at h2
        · simp only [Except.ok.injEq, Prod.mk.injEq] at h2
          exact h2.1.symm
        · simp at h2

/-- C5 witness: the amended theorem applied to the one-record collection
and the absent id. -/
theorem c5_update_delete_return_true_witness :
    (DataManager.update c5St "c" "absent" [("y", PyVal.s "2")] = .ok (true, c5St) ∧
      DataManager.delete c5St "c" "absent" = .ok (true, c5St)) ∧
    (true = true ∧ true = true) :=
  ⟨⟨rfl, rfl⟩,
    c5_update_delete_return_true c5St "c" "absent" [("y", PyVal.s "2")] true true c5St c5St
      rfl rfl⟩

/-- C6 counterexample: with an index on price and the operator-only query
(price ($gt 10)), can_use_index returns true although no query key carries
a plain equality value (the spec predicate is false on this input); find
therefore takes the index-assisted path and returns [], even though the
stored record with price 25 matches the operator filter. -/
theorem c6_operator_query_counterexample :
    canUseIndex c6St.index "items" c6Query = true ∧
    specIndexUsable c6St.index "items" c6Query = false ∧
    (DataManager.find c6St "items" (some c6Query) none 0).map Prod.fst = .ok [] ∧
    filterRecords (loadAllRecords c6Bytes) c6Query =
      [[("_id", PyVal.s uuid1), ("price", PyVal.s "25")]] :=
  ⟨rfl, rfl, rfl, rfl⟩

/-- C6 amended: can_use_index(c, q) returns true iff the loaded index data
of c is non-empty and at least one top-level key of q is an indexed
field — regardless of whether that key's condition is a plain equality
value or an operator map, so operator-only queries on indexed fields do
take the index-assisted path. -/
theorem c6_can_use_index_amended (idx : List (String × IndexData)) (c : String)
    (q : RecordV) :
    canUseIndex idx c q = true ↔
      ∃ d, alistGet idx c = some d ∧ d ≠ [] ∧ ∃ kv ∈ q, (alistGet d kv.1).isSome := by
  unfold canUseIndex
  cases h : alistGet idx c with
  | none => simp
  | some d =>
    simp only [Bool.and_eq_true, Bool.not_eq_true', List.any_eq_true, Option.some.injEq]
    constructor
    · rintro ⟨he, kv, hm, hs⟩
      exact ⟨d, rfl, by simpa [List.isEmpty_iff] using he, kv, hm, hs⟩
    · rintro ⟨d2, hd2, hne, kv, hm, hs⟩
      cases hd2
      exact ⟨by simpa [List.isEmpty_iff] using hne, kv, hm, hs⟩

/-- C7: for every record r with string keys and UTF-8 string values whose
_id is a valid id of at most 36 bytes, decoding the frame produced by
encoding r yields r itself: the frame body (the bytes after the 4-byte
length prefix) decodes to a dict d that agrees with r on the lookup of
every field including _id, and scanning the single-frame file yields
exactly [d]. -/
theorem c7_encode_decode_roundtrip (gid : String) (r r2 : RecordV) (F : List Nat)
    (rid : String)
    (hid : pyDictGet r "_id" = some (PyVal.s rid))
    (hlen : (utf8Str rid).length ≤ 36)
    (hstr : ∀ kv ∈ r, ∃ w, kv.2 = PyVal.s w)
    (hnodup : (r.map Prod.fst).Nodup)
    (henc : encodeRecord gid r = .ok (r2, F)) :
    ∃ d, decodeRecord (F.drop 4) = some d ∧
      (∀ k, pyDictGet d k = pyDictGet r k) ∧
      loadAllRecords F = [d] := by
  have hself : dictInsert r "_id" (PyVal.s rid) = r := dictInsert_self r _ _ hid
  unfold encodeRecord at henc
  rw [hid] at henc
  simp only [Option.getD_some, hself] at henc
  split at henc
  case isFalse hcond => exact absurd henc (by simp)
  case isTrue hcond =>
    simp only [Except.ok.injEq, Prod.mk.injEq] at henc
    obtain ⟨hr2, hF⟩ := henc
    subst hF
    simp only [Bool.and_eq_true, decide_eq_true_eq, fieldsFit, List.all_eq_true] at hcond
    obtain ⟨⟨hfit0, hrlen⟩, hblen⟩ := hcond
    have hfit : ∀ kv ∈ r, (utf8Str kv.1).length < 4294967296 ∧
        (utf8Str (pyStr kv.2)).length < 4294967296 := by
      intro kv hkv
      have := hfit0 kv hkv
      simpa [Bool.and_eq_true, decide_eq_true_eq] using this
    set idBytes := (utf8Str rid ++ List.replicate 36 0).take 36 with hidb
    set body := pack32 r.length ++ (r.map encOneField).flatten with hbody
    have hidblen : idBytes.length = 36 := by
      rw [hidb]
      simp only [List.length_take, List.length_append, List.length_replicate]
      omega
    -- the decoded dict
    set rid2 := utf8DecodeStr (rstripNul idBytes) with hrid2
    set dFinal := r.foldl (fun a kv => dictInsert a kv.1 kv.2) [("_id", PyVal.s rid2)]
      with hdfinal
    have hd4 : (pack32 (body.length + 36) ++ idBytes ++ body).drop 4 = idBytes ++ body := by
      rw [List.append_assoc]
      rw [show (4 : Nat) = (pack32 (body.length + 36)).length from rfl, drop_append_len]
    have hlt36 : ¬ ((idBytes ++ body).length < 36) := by
      simp [hidblen]
    have hdec : decodeRecord (idBytes ++ body) = some dFinal := by
      unfold decodeRecord
      rw [if_neg hlt36]
      rw [show (36 : Nat) = idBytes.length from hidblen.symm, take_append_len,
        drop_append_len]
      rw [hbody]
      simp only [pack32, List.cons_append, List.nil_append]
      rw [unpack32_pack32 _ hrlen, decodeFields_enc r _ hstr hfit]
    have hfb : ∀ b ∈ [idBytes ++ body], b.length < 4294967296 := by
      intro b hb
      simp only [List.mem_singleton] at hb
      subst hb
      simp only [List.length_append, hidblen]
      omega
    have hwf : pack32 (body.length + 36) ++ idBytes ++ body = wfLog [idBytes ++ body] := by
      rw [List.append_assoc]
      have hlen3 : (idBytes ++ body).length = body.length + 36 := by
        simp [List.length_append, hidblen]
        omega
      simp [wfLog, frameOf, hlen3]
    have hload : loadAllRecords (pack32 (body.length + 36) ++ idBytes ++ body) =
        [dFinal] := by
      rw [hwf]
      unfold loadAllRecords
      have h1 : (1 : Nat) ≤ (wfLog [idBytes ++ body]).length := by
        have := length_le_wfLog [idBytes ++ body]
        simpa using this
      have hsplit : (wfLog [idBytes ++ body]).length =
          ([idBytes ++ body] : List (List Nat)).length +
            ((wfLog [idBytes ++ body]).length - 1) := by
        simp only [List.length_singleton]
        omega
      have hlg := loadFramesGo_wfLog [idBytes ++ body] []
        ((wfLog [idBytes ++ body]).length - 1) hfb
      rw [List.append_nil] at hlg
      rw [hsplit, hlg, loadFramesGo_truncated [] (Or.inl (by simp))]
      simp [List.filterMap_cons, hdec]
    refine ⟨dFinal, by rw [hd4]; exact hdec, ?_, hload⟩
    intro k
    rw [hdfinal, pyDictGet_foldl_dictInsert, pyDictGet_reverse_of_nodup r hnodup]
    cases hk : pyDictGet r k with
    | some v => simp [Option.or]
    | none =>
      have hne : k ≠ "_id" := by
        intro h
        rw [h, hid] at hk
        cases hk
      simp [pyDictGet, Option.or, Ne.symm hne]

/-- C7 witness: the round-trip theorem applied to a concrete three-field
record with a 36-byte id. -/
theorem c7_encode_decode_roundtrip_witness :
    (pyDictGet c7Rec "_id" = some (PyVal.s uuid1) ∧
      (utf8Str uuid1).length ≤ 36 ∧
      (c7Rec.map Prod.fst).Nodup ∧
      encodeRecord "" c7Rec = .ok (c7Mutated, c7Frame)) ∧
    (∃ d, decodeRecord (c7Frame.drop 4) = some d ∧
      (∀ k, pyDictGet d k = pyDictGet c7Rec k) ∧
      loadAllRecords c7Frame = [d]) :=
  ⟨⟨rfl, by decide, by decide, rfl⟩,
    c7_encode_decode_roundtrip "" c7Rec c7Mutated c7Frame uuid1 rfl (by decide)
      (by
        intro kv hkv
        simp only [c7Rec, List.mem_cons, List.not_mem_nil, or_false] at hkv
        rcases hkv with h | h | h <;> subst h <;> exact ⟨_, rfl⟩)
      (by decide) rfl⟩

/-- C8: scanning a well-formed segment log followed by a truncated or
garbage tail (fewer than 4 bytes, or a declared body length overflowing
the end of file) yields exactly the records of the well-formed prefix —
the same list the prefix alone yields — and terminates normally: the
reader stops at the overflowing frame and, being a total function, never
fails on the tail. -/
theorem c8_truncation_tolerance (frames : List (List Nat)) (t : List Nat)
    (hf : ∀ b ∈ frames, b.length < 4294967296) (ht : truncatedTail t) :
    loadAllRecords (wfLog frames ++ t) = frames.filterMap decodeRecord ∧
    loadAllRecords (wfLog frames) = frames.filterMap decodeRecord := by
  have key : ∀ u : List Nat, truncatedTail u →
      loadAllRecords (wfLog frames ++ u) = frames.filterMap decodeRecord := by
    intro u hu
    unfold loadAllRecords
    have hge : frames.length ≤ (wfLog frames ++ u).length := by
      have := length_le_wfLog frames
      simp only [List.length_append]
      omega
    have hsplit : (wfLog frames ++ u).length =
        frames.length + ((wfLog frames ++ u).length - frames.length) := by omega
    rw [hsplit, loadFramesGo_wfLog frames u _ hf, loadFramesGo_truncated u hu,
      List.append_nil]
  have h2 := key [] (Or.inl (by simp))
  rw [List.append_nil] at h2
  exact ⟨key t ht, h2⟩

/-- C8 witness: the truncation theorem applied to a two-frame log (one
real encoded record, one garbage body) followed by a tail whose declared
length overflows the end of file. -/
theorem c8_truncation_tolerance_witness :
    ((∀ b ∈ c8Frames, b.length < 4294967296) ∧ truncatedTail c8Tail) ∧
      (loadAllRecords (wfLog c8Frames ++ c8Tail) = c8Frames.filterMap decodeRecord ∧
        loadAllRecords (wfLog c8Frames) = c8Frames.filterMap decodeRecord) :=
  ⟨⟨by decide, Or.inr ⟨255, 255, 255, 255, [1, 2, 3], rfl, by decide⟩⟩,
    c8_truncation_tolerance c8Frames c8Tail (by decide)
      (Or.inr ⟨255, 255, 255, 255, [1, 2, 3], rfl, by decide⟩)⟩

/-- C9 counterexample: on the S6 scenario as written (the four inserted
records still in the write buffer) the aggregate does not return the
claimed groups at all — the flush of its internal find raises NameError
(missing import os in buffer_manager.py) and aggregate catches only
CollectionNotFound; and even with the same four records resident in the
log and the buffer empty, the groups it returns contain no avg key — the
$avg accumulator is not supported — refuting the claimed result with
avg 150 / avg 350. -/
theorem c9_avg_missing_counterexample :
    DataManager.aggregate c9St "emp" c9Pipeline = .error .nameError ∧
    (DataManager.aggregate c9DiskSt "emp" c9Pipeline).map Prod.fst =
      .ok [c9GroupA, c9GroupB] ∧
    pyDictGet c9GroupA "avg" = none ∧
    pyDictGet c9GroupB "avg" = none :=
  ⟨rfl, by with_unfolding_all rfl, rfl, rfl⟩

/-- C9 amended: with the S6 records still buffered the aggregate raises
NameError out of the flush of its internal find; with the same records
resident in the log and the buffer empty it yields exactly the groups
(_id A, total 300, n 2) and (_id B, total 700, n 2): $sum and $count work
as claimed, while the unsupported $avg accumulator contributes no field to
the group dicts. -/
theorem c9_aggregate_amended :
    DataManager.aggregate c9St "emp" c9Pipeline = .error .nameError ∧
    (DataManager.aggregate c9DiskSt "emp" c9Pipeline).map Prod.fst =
      .ok [[("_id", PyVal.s "A"), ("total", PyVal.num 300), ("n", PyVal.intv 2)],
           [("_id", PyVal.s "B"), ("total", PyVal.num 700), ("n", PyVal.intv 2)]] :=
  ⟨rfl, by with_unfolding_all rfl⟩

/-- C10: insert never alters the caller's record dict: _id is set only on
the internal copy made by the closure (and it is that copy that
encode_record mutates), so the caller-visible dict after the call is the
argument itself — with or without an active transaction, and also on the
error path. -/
theorem c10_insert_preserves_caller_dict (st : DBState) (c : String) (data : RecordV)
    (gid : String) : (DataManager.insert st c data gid).2 = data := by
  unfold DataManager.insert
  split
  · rfl
  · split
    · rfl
    · dsimp only
      split <;> rfl

end FluxDB
